import Mathlib

/-!
Shallow embedding of the WWRouteMenu plugin (src/main.py) of
astrbot_plugin_wwroute.

Strings are modelled as lists of characters (FName).  The filesystem seen
by a directory scan is a record holding the facts the scan queries:
whether the menu directory exists, the directory listing, which full paths
are regular files, and whether listing the directory raises (the code
catches any exception around the whole loop and returns an empty dict).
Python dicts keyed by strings are modelled as association lists with
update-in-place-or-append semantics, which preserves Python's insertion
order and its overwrite behaviour.  Timestamps (time.time) are modelled
as integers; only differences against the TTL are ever used by the code.
-/

abbrev FName := List Char

def toFName (s : String) : FName := s.toList

/-- Association-list model of a Python dict: overwrite in place when the
key is present, append at the end otherwise. -/
def dinsert {α : Type} (k : FName) (v : α) : List (FName × α) → List (FName × α)
  | [] => [(k, v)]
  | (k₁, v₁) :: rest => if k = k₁ then (k, v) :: rest else (k₁, v₁) :: dinsert k v rest

/-- dict.get: first entry with the given key. -/
def dlookup {α : Type} (k : FName) : List (FName × α) → Option α
  | [] => none
  | (k₁, v₁) :: rest => if k = k₁ then some v₁ else dlookup k rest

abbrev Dict := List (FName × FName)

/-- Index of the last occurrence of a character in a list, if any. -/
def lastIdxOf (c : Char) (cs : FName) : Option Nat :=
  ((List.range cs.length).filter (fun i => cs.getD i ' ' = c)).getLast?

/-- os.path.splitext on a POSIX path: split at the last dot of the final
component, unless every character of the component before that dot is a
dot (leading dots never start an extension). -/
def splitext (p : FName) : FName × FName :=
  let start := match lastIdxOf '/' p with
    | none => 0
    | some j => j + 1
  match lastIdxOf '.' p with
  | none => (p, [])
  | some i =>
    if i < start then (p, [])
    else if ((p.drop start).take (i - start)).all (fun c => c = '.') then (p, [])
    else (p.take i, p.drop i)

/-- str.strip() with no argument: remove leading and trailing whitespace
(modelled over the ASCII whitespace characters). -/
def pyStrip (s : FName) : FName :=
  ((s.dropWhile Char.isWhitespace).reverse.dropWhile Char.isWhitespace).reverse

/-- self.image_extensions from WWRouteMenu.__init__. -/
def image_extensions : List FName :=
  [toFName (".jpg"), toFName (".jpeg"), toFName (".png"),
   toFName (".gif"), toFName (".bmp"), toFName (".webp")]

/-- self.menu_dir; the absolute base directory is abstracted away, only
path identity matters to the claims. -/
def menu_dir : FName := toFName ("menu")

/-- os.path.join for one component. -/
def path_join (d f : FName) : FName := d ++ '/' :: f

/-- The filesystem facts consulted by one directory scan. -/
structure FileSystem where
  menu_dir_exists : Bool
  listing : List FName
  is_file : FName → Bool
  listdir_fails : Bool

/-- The per-entry test of WWRouteMenu._get_image_files:
os.path.isfile(file_path) and os.path.splitext(filename)[1].lower() in
self.image_extensions. -/
def eligible (fs : FileSystem) (f : FName) : Bool :=
  fs.is_file (path_join menu_dir f) &&
    decide ((splitext f).2.map Char.toLower ∈ image_extensions)

/-- WWRouteMenu._get_image_files: empty dict when the directory is missing
or reading it raises, otherwise one dict assignment per listed filename
that is a regular file with a recognised extension, keyed by the base
name, valued by the joined path. -/
def _get_image_files (fs : FileSystem) : Dict :=
  if fs.menu_dir_exists = false then []
  else if fs.listdir_fails then []
  else fs.listing.foldl
    (fun d f => if eligible fs f then dinsert (splitext f).1 (path_join menu_dir f) d else d)
    []

/-- The mutable plugin state touched by the cache operations:
self._image_cache, self._cache_timestamp, and whether the periodic
cache-cleaner task spawned in __init__ is still running. -/
structure CacheState where
  image_cache : Option Dict
  cache_timestamp : Int
  cleaner_running : Bool
  deriving DecidableEq

/-- self._cache_duration (seconds). -/
def cache_duration : Int := 300

/-- WWRouteMenu._get_image_files_cached at time now.  Returns the mapping
handed back, the state after the call, and the number of directory scans
performed by the call (0 or 1). -/
def _get_image_files_cached (fs : FileSystem) (now : Int) (s : CacheState) :
    Dict × CacheState × Nat :=
  match s.image_cache with
  | some d =>
    if now - s.cache_timestamp < cache_duration then (d, s, 0)
    else
      let d₂ := _get_image_files fs
      (d₂, { s with image_cache := some d₂, cache_timestamp := now }, 1)
  | none =>
    let d₂ := _get_image_files fs
    (d₂, { s with image_cache := some d₂, cache_timestamp := now }, 1)

/-- WWRouteMenu._find_image_by_name: image_dict.get(name.strip(), None)
against the cached mapping. -/
def _find_image_by_name (fs : FileSystem) (now : Int) (s : CacheState) (name : FName) :
    Option FName × CacheState × Nat :=
  let r := _get_image_files_cached fs now s
  (dlookup (pyStrip name) r.1, r.2.1, r.2.2)

/-- WWRouteMenu._invalidate_cache. -/
def _invalidate_cache (s : CacheState) : CacheState :=
  { s with image_cache := none, cache_timestamp := 0 }

/-- WWRouteMenu.terminate: the source calls self._invalidate_cache() and
logs; it never cancels self._cache_cleaner_task, so the cleaner flag is
left untouched. -/
def terminate (s : CacheState) : CacheState :=
  _invalidate_cache s

/-- One iteration of WWRouteMenu._periodic_cache_cleaner after its sleep:
possible only while the task is running, and it invalidates the cache. -/
def _periodic_cache_cleaner_tick (s : CacheState) : Option CacheState :=
  if s.cleaner_running then some (_invalidate_cache s) else none

/-- The replies WWRouteMenu.handle_image_request can yield: the caption
plus image chain on success, or the plain send-failure text (modelled by
its parameter) when sending raises. -/
inductive Reply where
  | image_chain (caption_name : FName) (path : FName)
  | send_failed (nm : FName)
  deriving DecidableEq

/-- Observable outcome of one run of WWRouteMenu.handle_image_request:
whether a name lookup was performed, the reply yielded (if any), whether
event.stop_event() was called, the plugin state afterwards, and how many
directory scans happened. -/
structure HandlerResult where
  did_lookup : Bool
  reply : Option Reply
  stopped : Bool
  st : CacheState
  scans : Nat
  deriving DecidableEq

/-- WWRouteMenu.handle_image_request.  use_exists gives os.path.exists at
use time (the file may have vanished since the scan); send_fails models
an exception raised while building or yielding the image chain, which the
handler catches, answering with the send-failure text and skipping
event.stop_event(). -/
def handle_image_request (fs : FileSystem) (use_exists : FName → Bool)
    (send_fails : Bool) (now : Int) (s : CacheState) (message_str : FName) :
    HandlerResult :=
  let mt := pyStrip message_str
  if mt = [] ∨ mt.head? = some '/' then ⟨false, none, false, s, 0⟩
  else if 50 < mt.length then ⟨false, none, false, s, 0⟩
  else
    let r := _find_image_by_name fs now s mt
    match r.1 with
    | some p =>
      if use_exists p then
        if send_fails then ⟨true, some (Reply.send_failed mt), false, r.2.1, r.2.2⟩
        else ⟨true, some (Reply.image_chain mt p), true, r.2.1, r.2.2⟩
      else ⟨true, none, false, r.2.1, r.2.2⟩
    | none => ⟨true, none, false, r.2.1, r.2.2⟩

/-- The filesystem facts consulted by route_statistics when statting each
cached path: os.path.exists, and os.path.getsize (none models an OSError,
which the code catches and treats as an invalid file). -/
structure StatFS where
  pexists : FName → Bool
  getsize : FName → Option Nat

/-- The accumulator of WWRouteMenu.route_statistics' loop. -/
structure RouteStats where
  ext_count : List (FName × Nat)
  total_size : Nat
  valid_files : Nat
  invalid_files : List FName
  deriving DecidableEq

/-- One iteration of the statistics loop over (display_name, file_path). -/
def statStep (sfs : StatFS) (acc : RouteStats) (e : FName × FName) : RouteStats :=
  let ext := (splitext e.2).2.map Char.toLower
  let acc₁ := { acc with ext_count := dinsert ext ((dlookup ext acc.ext_count).getD 0 + 1) acc.ext_count }
  if sfs.pexists e.2 then
    match sfs.getsize e.2 with
    | some sz => { acc₁ with total_size := acc₁.total_size + sz, valid_files := acc₁.valid_files + 1 }
    | none => { acc₁ with invalid_files := acc₁.invalid_files ++ [e.1] }
  else { acc₁ with invalid_files := acc₁.invalid_files ++ [e.1] }

/-- The statistics WWRouteMenu.route_statistics derives from the cached
mapping (the reported total count is the length of the mapping itself). -/
def route_statistics (sfs : StatFS) (d : Dict) : RouteStats :=
  d.foldl (statStep sfs) ⟨[], 0, 0, []⟩

/-- The average the statistics text reports when valid_files > 0:
total_size / valid_files (denominator is the valid count only). -/
def average_size (r : RouteStats) : Option ℚ :=
  if 0 < r.valid_files then some ((r.total_size : ℚ) / (r.valid_files : ℚ)) else none

/-- An entry is counted valid by the statistics loop iff its path exists
and statting it succeeds. -/
def statValid (sfs : StatFS) (e : FName × FName) : Bool :=
  sfs.pexists e.2 && (sfs.getsize e.2).isSome

/-- The byte contribution of one entry to the statistics size total. -/
def statSize (sfs : StatFS) (e : FName × FName) : Option Nat :=
  if sfs.pexists e.2 then sfs.getsize e.2 else none

/-- A present, readable, empty menu directory. -/
def fsEmpty : FileSystem := ⟨true, [], fun _ => true, false⟩

/-- The plugin state right after __init__: no cache, timestamp 0, cleaner
task running. -/
def s0 : CacheState := ⟨none, 0, true⟩

def mAlpha : FName := toFName ("Alpha")

def pAlpha : FName := path_join menu_dir (toFName ("Alpha.png"))

def pAlpha2 : FName := path_join menu_dir (toFName ("Alpha2.png"))

/-- A cached mapping holding Alpha.png and Alpha2.png. -/
def dAlpha : Dict := [(toFName ("Alpha"), pAlpha), (toFName ("Alpha2"), pAlpha2)]

/-- State whose fresh cache (timestamp 0) holds dAlpha. -/
def sAlpha : CacheState := ⟨some dAlpha, 0, true⟩

/-- A filesystem whose scan is irrelevant (used where the cache hits). -/
def fs0 : FileSystem := ⟨true, [], fun _ => true, false⟩

/-- Directory holding a.png and a.jpg: two eligible files sharing the base
name a. -/
def fsAA : FileSystem :=
  ⟨true, [toFName ("a.png"), toFName ("a.jpg")], fun _ => true, false⟩

/-- Directory holding A.png, b.JPG and skip.txt. -/
def fsABskip : FileSystem :=
  ⟨true, [toFName ("A.png"), toFName ("b.JPG"), toFName ("skip.txt")], fun _ => true, false⟩

/-- A live plugin state: populated cache, cleaner task running. -/
def sLive : CacheState := ⟨some dAlpha, 42, true⟩

/-- Stat-time filesystem where every cached path has vanished. -/
def sfsGone : StatFS := ⟨fun _ => false, fun _ => none⟩

/-- Cached mapping {X: /menu/X.png}. -/
def dX : Dict := [(toFName ("X"), toFName ("/menu/X.png"))]

theorem cached_state_cache (fs : FileSystem) (now : Int) (s : CacheState) :
    (_get_image_files_cached fs now s).2.1.image_cache =
      some (_get_image_files_cached fs now s).1 := by
  obtain ⟨ic, ts, cr⟩ := s
  cases ic with
  | none => rfl
  | some d =>
    simp only [_get_image_files_cached]
    split
    · rfl
    · rfl

theorem cached_hit (fs : FileSystem) (now : Int) (s : CacheState) (d : Dict)
    (h : s.image_cache = some d) (ht : now - s.cache_timestamp < cache_duration) :
    _get_image_files_cached fs now s = (d, s, 0) := by
  obtain ⟨ic, ts, cr⟩ := s
  cases ic with
  | none => exact Option.noConfusion h
  | some d₁ =>
    obtain rfl : d₁ = d := Option.some.inj h
    simp only [_get_image_files_cached]
    rw [if_pos ht]

theorem cached_miss (fs : FileSystem) (now : Int) (s : CacheState)
    (h : s.image_cache = none ∨ cache_duration ≤ now - s.cache_timestamp) :
    _get_image_files_cached fs now s =
      (_get_image_files fs, ⟨some (_get_image_files fs), now, s.cleaner_running⟩, 1) := by
  obtain ⟨ic, ts, cr⟩ := s
  cases ic with
  | none => rfl
  | some d =>
    rcases h with h | h
    · exact Option.noConfusion h
    · simp only [_get_image_files_cached]
      rw [if_neg (not_lt.2 h)]

/-- C1: a second _get_image_files_cached call within the TTL of the state
left by the first call returns the very mapping of the first call, leaves
the state untouched and performs no directory scan; and a call on an
absent or expired cache performs exactly one scan, stores the scan result
with the call time, and returns that result. -/
theorem cached_ttl_hit_and_refresh (fs₁ fs₂ : FileSystem) (t₁ t₂ : Int) (s : CacheState) :
    (t₂ - (_get_image_files_cached fs₁ t₁ s).2.1.cache_timestamp < cache_duration →
      _get_image_files_cached fs₂ t₂ (_get_image_files_cached fs₁ t₁ s).2.1 =
        ((_get_image_files_cached fs₁ t₁ s).1, (_get_image_files_cached fs₁ t₁ s).2.1, 0))
    ∧ (s.image_cache = none ∨ cache_duration ≤ t₁ - s.cache_timestamp →
      _get_image_files_cached fs₁ t₁ s =
        (_get_image_files fs₁, ⟨some (_get_image_files fs₁), t₁, s.cleaner_running⟩, 1)) := by
  constructor
  · intro h
    exact cached_hit fs₂ t₂ _ _ (cached_state_cache fs₁ t₁ s) h
  · exact cached_miss fs₁ t₁ s

theorem cached_ttl_hit_and_refresh_witness :
    _get_image_files_cached fsEmpty 100 (_get_image_files_cached fsEmpty 0 s0).2.1 =
      ((_get_image_files_cached fsEmpty 0 s0).1, (_get_image_files_cached fsEmpty 0 s0).2.1, 0)
    ∧ _get_image_files_cached fsEmpty 0 s0 =
      (_get_image_files fsEmpty, ⟨some (_get_image_files fsEmpty), 0, s0.cleaner_running⟩, 1) :=
  ⟨(cached_ttl_hit_and_refresh fsEmpty fsEmpty 0 100 s0).1 (by decide),
   (cached_ttl_hit_and_refresh fsEmpty fsEmpty 0 100 s0).2 (Or.inl rfl)⟩

/-- C2: _invalidate_cache clears the mapping and zeroes the timestamp, and
a _get_image_files_cached call right after it performs exactly one scan
and returns the fresh scan result, whatever the prior state and however
much of the TTL had elapsed. -/
theorem invalidate_then_rescan (s : CacheState) (fs : FileSystem) (t : Int) :
    (_invalidate_cache s).image_cache = none
    ∧ (_invalidate_cache s).cache_timestamp = 0
    ∧ _get_image_files_cached fs t (_invalidate_cache s) =
        (_get_image_files fs, ⟨some (_get_image_files fs), t, s.cleaner_running⟩, 1) :=
  ⟨rfl, rfl, cached_miss fs t _ (Or.inl rfl)⟩

/-- C9 (code evaluated at the failing input): terminate on a live state
invalidates the cache but leaves the periodic cleaner task running, so a
further periodic invalidation tick is still possible after teardown; the
source's terminate never cancels _cache_cleaner_task. -/
theorem terminate_leaves_cleaner_running :
    terminate sLive = ⟨none, 0, true⟩
    ∧ (_periodic_cache_cleaner_tick (terminate sLive)).isSome = true := by
  decide

/-- C10 counterexample: a call at time 100 on the state left by a call at
time 0 (still within the TTL) leaves the timestamp strictly below the
call time, refuting that after every call the timestamp is the call
time. -/
theorem cached_hit_timestamp_stale :
    (_get_image_files_cached fsEmpty 100 (_get_image_files_cached fsEmpty 0 s0).2.1).2.1.cache_timestamp
      < 100 := by
  decide

/-- C10 (amended): after every _get_image_files_cached call the cache
field is non-absent; a call on an absent or expired cache stores the scan
result (an empty mapping included) with the call time; and once an empty
scan result is cached at time t, any later call within the TTL returns
the empty mapping without scanning. -/
theorem cached_always_populated (fs : FileSystem) (t : Int) (s : CacheState) :
    ((_get_image_files_cached fs t s).2.1.image_cache).isSome = true
    ∧ (s.image_cache = none ∨ cache_duration ≤ t - s.cache_timestamp →
        (_get_image_files_cached fs t s).2.1.cache_timestamp = t
        ∧ (_get_image_files_cached fs t s).2.1.image_cache = some (_get_image_files fs))
    ∧ (∀ (fs₂ : FileSystem) (t₂ : Int), s.image_cache = none → _get_image_files fs = [] →
        t₂ - t < cache_duration →
        _get_image_files_cached fs₂ t₂ (_get_image_files_cached fs t s).2.1 =
          ([], (_get_image_files_cached fs t s).2.1, 0)) := by
  refine ⟨?_, ?_, ?_⟩
  · rw [cached_state_cache fs t s]
    rfl
  · intro h
    rw [cached_miss fs t s h]
    exact ⟨rfl, rfl⟩
  · intro fs₂ t₂ hnone hempty hlt
    rw [cached_miss fs t s (Or.inl hnone), hempty]
    exact cached_hit fs₂ t₂ ⟨some [], t, s.cleaner_running⟩ [] rfl hlt

theorem cached_always_populated_witness :
    ((_get_image_files_cached fsEmpty 0 s0).2.1.image_cache).isSome = true
    ∧ ((_get_image_files_cached fsEmpty 0 s0).2.1.cache_timestamp = 0
        ∧ (_get_image_files_cached fsEmpty 0 s0).2.1.image_cache = some (_get_image_files fsEmpty))
    ∧ _get_image_files_cached fsEmpty 100 (_get_image_files_cached fsEmpty 0 s0).2.1 =
        ([], (_get_image_files_cached fsEmpty 0 s0).2.1, 0) :=
  ⟨(cached_always_populated fsEmpty 0 s0).1,
   (cached_always_populated fsEmpty 0 s0).2.1 (Or.inl rfl),
   (cached_always_populated fsEmpty 0 s0).2.2 fsEmpty 100 rfl (by decide) (by decide)⟩

theorem scan_foldl_filter (fs : FileSystem) (l : List FName) (acc : Dict) :
    l.foldl
      (fun d f => if eligible fs f then dinsert (splitext f).1 (path_join menu_dir f) d else d)
      acc
    = (l.filter (eligible fs)).foldl
      (fun d f => dinsert (splitext f).1 (path_join menu_dir f) d) acc := by
  induction l generalizing acc with
  | nil => rfl
  | cons f t ih =>
    by_cases he : eligible fs f
    · simp only [List.foldl_cons, List.filter_cons, he, if_pos, ih]
    · simp only [List.foldl_cons, List.filter_cons, he, if_neg, Bool.false_eq_true,
        ite_false, ih]

theorem dinsert_fresh {α : Type} (k : FName) (v : α) (l : List (FName × α))
    (h : k ∉ l.map Prod.fst) : dinsert k v l = l ++ [(k, v)] := by
  induction l with
  | nil => rfl
  | cons e t ih =>
    obtain ⟨k₁, v₁⟩ := e
    simp only [List.map_cons, List.mem_cons, not_or] at h
    simp only [dinsert, if_neg h.1, List.cons_append]
    rw [ih h.2]

theorem scan_foldl_fresh (l : List FName) (acc : Dict)
    (hd : l.Pairwise (fun f g => (splitext f).1 ≠ (splitext g).1))
    (hacc : ∀ f ∈ l, (splitext f).1 ∉ acc.map Prod.fst) :
    l.foldl (fun d f => dinsert (splitext f).1 (path_join menu_dir f) d) acc
      = acc ++ l.map (fun f => ((splitext f).1, path_join menu_dir f)) := by
  induction l generalizing acc with
  | nil => simp
  | cons f t ih =>
    simp only [List.foldl_cons, List.map_cons]
    rw [dinsert_fresh _ _ _ (hacc f (List.mem_cons_self f t))]
    rw [ih _ (List.Pairwise.of_cons hd) ?_]
    · rw [List.append_assoc, List.singleton_append]
    · intro g hg
      simp only [List.map_append, List.mem_append, List.map_cons, List.map_nil,
        List.mem_singleton, not_or]
      refine ⟨hacc g (List.mem_cons_of_mem f hg), ?_⟩
      have := (List.pairwise_cons.1 hd).1 g hg
      simpa using fun hgf => this hgf.symm

/-- C3 (amended): when the eligible files of the listing have pairwise
distinct base names, _get_image_files holds exactly one entry per
eligible regular file, in listing order, keyed by the base name and
valued by the joined path, and no file with an unrecognised extension
contributes an entry; in particular the listing A.png, b.JPG, skip.txt
yields exactly the two entries A and b. -/
theorem scan_one_entry_per_file :
    (∀ fs : FileSystem, fs.menu_dir_exists = true → fs.listdir_fails = false →
      (fs.listing.filter (eligible fs)).Pairwise (fun f g => (splitext f).1 ≠ (splitext g).1) →
      _get_image_files fs =
        (fs.listing.filter (eligible fs)).map
          (fun f => ((splitext f).1, path_join menu_dir f)))
    ∧ _get_image_files fsABskip =
        [(toFName ("A"), path_join menu_dir (toFName ("A.png"))),
         (toFName ("b"), path_join menu_dir (toFName ("b.JPG")))] := by
  constructor
  · intro fs h₁ h₂ hd
    simp only [_get_image_files, h₁, h₂, Bool.true_eq_false, ite_false, Bool.false_eq_true]
    rw [scan_foldl_filter fs fs.listing []]
    rw [scan_foldl_fresh _ [] hd (by intro f _; simp)]
    simp
  · decide

theorem scan_one_entry_per_file_witness :
    _get_image_files fsABskip =
      (fsABskip.listing.filter (eligible fsABskip)).map
        (fun f => ((splitext f).1, path_join menu_dir f)) :=
  scan_one_entry_per_file.1 fsABskip rfl rfl (by decide)

/-- C3 counterexample: with eligible files a.png and a.jpg the scan holds
strictly fewer entries than eligible files (the second assignment
overwrites the first), refuting one entry per eligible file. -/
theorem scan_collision_loses_entry :
    (_get_image_files fsAA).length < (fsAA.listing.filter (eligible fsAA)).length := by
  decide

/-- C4: _find_image_by_name trims the query and looks it up exactly among
the cached keys; with Alpha.png and Alpha2.png cached, the query
"  Alpha  " returns Alpha.png's path, and a query can return Alpha2.png's
path only when it trims to exactly Alpha2. -/
theorem find_trim_exact_match :
    (∀ (fs : FileSystem) (t : Int) (s : CacheState) (nm : FName),
      (_find_image_by_name fs t s nm).1 =
        dlookup (pyStrip nm) (_get_image_files_cached fs t s).1)
    ∧ (_find_image_by_name fs0 10 sAlpha (toFName ("  Alpha  "))).1 = some pAlpha
    ∧ (∀ q : FName, (_find_image_by_name fs0 10 sAlpha q).1 = some pAlpha2 →
        pyStrip q = toFName ("Alpha2")) := by
  refine ⟨fun fs t s nm => rfl, by decide, ?_⟩
  intro q h
  have hc : _get_image_files_cached fs0 10 sAlpha = (dAlpha, sAlpha, 0) :=
    cached_hit fs0 10 sAlpha dAlpha rfl (by decide)
  simp only [_find_image_by_name, hc] at h
  simp only [dAlpha, dlookup] at h
  split_ifs at h with h₁ h₂
  · exact absurd (Option.some.inj h) (by decide)
  · exact h₂

theorem find_trim_exact_match_witness :
    pyStrip (toFName (" Alpha2  ")) = toFName ("Alpha2") :=
  find_trim_exact_match.2.2 (toFName (" Alpha2  ")) (by decide)

/-- C5: handle_image_request performs no lookup and yields nothing when
the stripped text is empty or starts with the command slash, or when its
length exceeds 50; a stripped, non-command text of length at most 50
reaches the name lookup. -/
theorem handler_gating (fs : FileSystem) (ue : FName → Bool) (sf : Bool) (t : Int)
    (s : CacheState) (msg : FName) :
    (pyStrip msg = [] ∨ (pyStrip msg).head? = some '/' →
      handle_image_request fs ue sf t s msg = ⟨false, none, false, s, 0⟩)
    ∧ (50 < (pyStrip msg).length →
      handle_image_request fs ue sf t s msg = ⟨false, none, false, s, 0⟩)
    ∧ (¬(pyStrip msg = [] ∨ (pyStrip msg).head? = some '/') → (pyStrip msg).length ≤ 50 →
      (handle_image_request fs ue sf t s msg).did_lookup = true) := by
  refine ⟨fun h => ?_, fun h => ?_, fun h₁ h₂ => ?_⟩
  · simp only [handle_image_request, if_pos h]
  · by_cases h₀ : pyStrip msg = [] ∨ (pyStrip msg).head? = some '/'
    · simp only [handle_image_request, if_pos h₀]
    · simp only [handle_image_request, if_neg h₀, if_pos h]
  · simp only [handle_image_request, if_neg h₁, if_neg (not_lt.2 h₂)]
    cases hm : (_find_image_by_name fs t s (pyStrip msg)).1 with
    | none => simp [hm]
    | some p =>
      by_cases hu : ue p
      · by_cases hsf : sf
        · simp [hm, hu, hsf]
        · simp [hm, hu, hsf]
      · simp [hm, hu]

theorem handler_gating_witness :
    handle_image_request fsEmpty (fun _ => true) false 0 s0 (toFName ("/cmd")) =
      ⟨false, none, false, s0, 0⟩
    ∧ handle_image_request fsEmpty (fun _ => true) false 0 s0 (List.replicate 51 'a') =
      ⟨false, none, false, s0, 0⟩
    ∧ (handle_image_request fsEmpty (fun _ => true) false 0 s0 mAlpha).did_lookup = true :=
  ⟨(handler_gating fsEmpty (fun _ => true) false 0 s0 (toFName ("/cmd"))).1 (by decide),
   (handler_gating fsEmpty (fun _ => true) false 0 s0 (List.replicate 51 'a')).2.1 (by decide),
   (handler_gating fsEmpty (fun _ => true) false 0 s0 mAlpha).2.2 (by decide) (by decide)⟩

/-- C7 (amended): a non-ignored message whose stripped text matches no
cached name makes the handler yield no reply at all and leave the event
unstopped; the source has no else branch after the existence check, so no
not-found text exists. -/
theorem handler_no_match_silent (fs : FileSystem) (ue : FName → Bool) (sf : Bool)
    (t : Int) (s : CacheState) (msg : FName)
    (h₁ : ¬(pyStrip msg = [] ∨ (pyStrip msg).head? = some '/'))
    (h₂ : (pyStrip msg).length ≤ 50)
    (hm : (_find_image_by_name fs t s (pyStrip msg)).1 = none) :
    (handle_image_request fs ue sf t s msg).reply = none
    ∧ (handle_image_request fs ue sf t s msg).stopped = false := by
  simp [handle_image_request, if_neg h₁, not_lt.2 h₂, hm]

theorem handler_no_match_silent_witness :
    (handle_image_request fsEmpty (fun _ => true) true 0 s0 mAlpha).reply = none
    ∧ (handle_image_request fsEmpty (fun _ => true) true 0 s0 mAlpha).stopped = false :=
  handler_no_match_silent fsEmpty (fun _ => true) true 0 s0 mAlpha
    (by decide) (by decide) (by decide)

/-- C7 counterexample: the message Alpha is non-empty, not command
prefixed and short, its lookup against an empty menu finds nothing, and
the handler's whole outcome carries no reply: the user gets silence, not
a not-found message. -/
theorem handler_no_match_reply_none :
    (pyStrip mAlpha).length = 5
    ∧ (pyStrip mAlpha).head? = some 'A'
    ∧ (_find_image_by_name fsEmpty 0 s0 (pyStrip mAlpha)).1 = none
    ∧ handle_image_request fsEmpty (fun _ => true) false 0 s0 mAlpha =
        ⟨true, none, false, ⟨some [], 0, true⟩, 1⟩ := by
  decide

/-- C8 (amended): when the lookup succeeds but the path fails the
existence check at use time the handler yields no reply (silence, not a
send-failure text); when the path still exists and sending raises, the
handler catches the exception, yields the plain send-failure text and
does not call stop_event. -/
theorem handler_vanished_and_send_failure (fs : FileSystem) (ue : FName → Bool)
    (sf : Bool) (t : Int) (s : CacheState) (msg : FName) (p : FName)
    (h₁ : ¬(pyStrip msg = [] ∨ (pyStrip msg).head? = some '/'))
    (h₂ : (pyStrip msg).length ≤ 50)
    (hm : (_find_image_by_name fs t s (pyStrip msg)).1 = some p) :
    (ue p = false →
      (handle_image_request fs ue sf t s msg).reply = none
      ∧ (handle_image_request fs ue sf t s msg).stopped = false)
    ∧ (ue p = true → sf = true →
      (handle_image_request fs ue sf t s msg).reply = some (Reply.send_failed (pyStrip msg))
      ∧ (handle_image_request fs ue sf t s msg).stopped = false) := by
  constructor
  · intro hu
    simp [handle_image_request, if_neg h₁, not_lt.2 h₂, hm, hu]
  · intro hu hsf
    subst hsf
    simp [handle_image_request, if_neg h₁, not_lt.2 h₂, hm, hu]

theorem handler_vanished_and_send_failure_witness :
    ((handle_image_request fs0 (fun _ => false) false 10 sAlpha mAlpha).reply = none
      ∧ (handle_image_request fs0 (fun _ => false) false 10 sAlpha mAlpha).stopped = false)
    ∧ ((handle_image_request fs0 (fun _ => true) true 10 sAlpha mAlpha).reply =
          some (Reply.send_failed (pyStrip mAlpha))
      ∧ (handle_image_request fs0 (fun _ => true) true 10 sAlpha mAlpha).stopped = false) :=
  ⟨(handler_vanished_and_send_failure fs0 (fun _ => false) false 10 sAlpha mAlpha pAlpha
      (by decide) (by decide) (by decide)).1 rfl,
   (handler_vanished_and_send_failure fs0 (fun _ => true) true 10 sAlpha mAlpha pAlpha
      (by decide) (by decide) (by decide)).2 rfl rfl⟩

/-- C8 counterexample: the lookup for Alpha succeeds, the file is gone at
use time, and the handler yields no reply: the user gets silence, not the
generic send-failure message the claim promises. -/
theorem handler_vanished_silent :
    (_find_image_by_name fs0 10 sAlpha (pyStrip mAlpha)).1 = some pAlpha
    ∧ (handle_image_request fs0 (fun _ => false) false 10 sAlpha mAlpha).reply = none := by
  decide

theorem statStep_total (sfs : StatFS) (acc : RouteStats) (e : FName × FName) :
    (statStep sfs acc e).total_size = acc.total_size + (statSize sfs e).getD 0 := by
  by_cases hp : sfs.pexists e.2
  · simp only [statStep, statSize, hp, ite_true]
    cases hsz : sfs.getsize e.2 <;> simp [hsz]
  · simp [statStep, statSize, hp]

theorem statStep_valid (sfs : StatFS) (acc : RouteStats) (e : FName × FName) :
    (statStep sfs acc e).valid_files =
      acc.valid_files + (if statValid sfs e then 1 else 0) := by
  by_cases hp : sfs.pexists e.2
  · simp only [statStep, statValid, hp, ite_true, Bool.true_and]
    cases hsz : sfs.getsize e.2 <;> simp [hsz]
  · simp [statStep, statValid, hp]

theorem statStep_invalid (sfs : StatFS) (acc : RouteStats) (e : FName × FName) :
    (statStep sfs acc e).invalid_files =
      acc.invalid_files ++ (if statValid sfs e then [] else [e.1]) := by
  by_cases hp : sfs.pexists e.2
  · simp only [statStep, statValid, hp, ite_true, Bool.true_and]
    cases hsz : sfs.getsize e.2 <;> simp [hsz]
  · simp [statStep, statValid, hp]

theorem stats_foldl_spec (sfs : StatFS) (l : Dict) (acc : RouteStats) :
    ((l.foldl (statStep sfs) acc).total_size =
      acc.total_size + (l.filterMap (statSize sfs)).sum)
    ∧ ((l.foldl (statStep sfs) acc).valid_files =
      acc.valid_files + (l.filter (statValid sfs)).length)
    ∧ ((l.foldl (statStep sfs) acc).invalid_files =
      acc.invalid_files ++ (l.filter (fun e => ! statValid sfs e)).map Prod.fst) := by
  induction l generalizing acc with
  | nil => simp
  | cons e t ih =>
    obtain ⟨ih₁, ih₂, ih₃⟩ := ih (statStep sfs acc e)
    refine ⟨?_, ?_, ?_⟩
    · rw [List.foldl_cons, ih₁, statStep_total]
      cases hsz : statSize sfs e <;> simp [List.filterMap_cons, hsz]
      all_goals omega
    · rw [List.foldl_cons, ih₂, statStep_valid]
      by_cases hv : statValid sfs e <;> simp [List.filter_cons, hv]
      all_goals omega
    · rw [List.foldl_cons, ih₃, statStep_invalid]
      by_cases hv : statValid sfs e <;> simp [List.filter_cons, hv]

theorem filter_not_length {α : Type} (p : α → Bool) (l : List α) :
    (l.filter p).length + (l.filter (fun a => ! p a)).length = l.length := by
  induction l with
  | nil => rfl
  | cons a t ih => by_cases h : p a <;> simp [List.filter_cons, h] <;> omega

/-- C6: the statistics count every cached entry in the overall total (the
valid and invalid counts partition the mapping's length), list every
entry whose path fails the stat-time existence check among the invalid
files with no contribution to the byte total, sum sizes over the valid
entries only, and divide the average by the valid count only; in the
scenario where the single cached file X has vanished, X is invalid, the
size total is 0, yet the mapping still has length 1. -/
theorem stats_invalid_counted (sfs : StatFS) (d : Dict) :
    ((route_statistics sfs d).total_size = (d.filterMap (statSize sfs)).sum)
    ∧ ((route_statistics sfs d).valid_files = (d.filter (statValid sfs)).length)
    ∧ ((route_statistics sfs d).invalid_files =
        (d.filter (fun e => ! statValid sfs e)).map Prod.fst)
    ∧ ((route_statistics sfs d).valid_files +
        (route_statistics sfs d).invalid_files.length = d.length)
    ∧ (∀ nm p, (nm, p) ∈ d → sfs.pexists p = false →
        nm ∈ (route_statistics sfs d).invalid_files ∧ statSize sfs (nm, p) = none)
    ∧ average_size (route_statistics sfs d) =
        (if 0 < (route_statistics sfs d).valid_files then
          some (((route_statistics sfs d).total_size : ℚ) /
            ((route_statistics sfs d).valid_files : ℚ))
        else none)
    ∧ (route_statistics sfsGone dX =
        ⟨[(toFName (".png"), 1)], 0, 0, [toFName ("X")]⟩ ∧ dX.length = 1) := by
  obtain ⟨h₁, h₂, h₃⟩ := stats_foldl_spec sfs d ⟨[], 0, 0, []⟩
  refine ⟨?_, ?_, ?_, ?_, ?_, rfl, by decide⟩
  · simpa using h₁
  · simpa using h₂
  · simpa using h₃
  · have h₂' : (route_statistics sfs d).valid_files = (d.filter (statValid sfs)).length := by
      simpa using h₂
    have h₃' : (route_statistics sfs d).invalid_files =
        (d.filter (fun e => ! statValid sfs e)).map Prod.fst := by
      simpa using h₃
    rw [h₂', h₃', List.length_map]
    exact filter_not_length (statValid sfs) d
  · intro nm p hmem hp
    have h₃' : (route_statistics sfs d).invalid_files =
        (d.filter (fun e => ! statValid sfs e)).map Prod.fst := by
      simpa using h₃
    refine ⟨?_, by simp [statSize, hp]⟩
    rw [h₃']
    exact List.mem_map_of_mem Prod.fst
      (List.mem_filter.2 ⟨hmem, by simp [statValid, hp]⟩)

theorem stats_invalid_counted_witness :
    toFName ("X") ∈ (route_statistics sfsGone dX).invalid_files
    ∧ statSize sfsGone (toFName ("X"), toFName ("/menu/X.png")) = none :=
  (stats_invalid_counted sfsGone dX).2.2.2.2.1 (toFName ("X")) (toFName ("/menu/X.png"))
    (by decide) rfl
